import Mathlib

/-!
Shallow embedding of the cache-with-fallback core of the multi-api financial
dashboard (src/app/services/cache.py, src/app/services/data_service.py,
src/app/utils/retry.py, src/app/api/polygon.py).

Modelling conventions:
* Wall-clock time is an integer number of seconds (`Time := Int`); `now` is an
  explicit parameter everywhere the Python code calls `datetime.now()`.
* The on-disk cache directory is an association list `Store α` mapping the
  file key `(cache_type, ticker)` (the file `{cache_type}_{ticker}.json`) to a
  `RawRecord α` describing what `json.load` + `datetime.fromisoformat` would
  see in that file:
  - `malformedJson`: `json.load` raises `json.JSONDecodeError`;
  - `missingTimestamp`: valid JSON object without a `"timestamp"` key, so
    `cached["timestamp"]` raises `KeyError`;
  - `badTimestamp`: a `"timestamp"` key is present but `fromisoformat`
    raises `ValueError` on its value;
  - `ok data ts source`: a fully parseable record `{data, timestamp, source}`.
* Python exceptions that escape a function are modelled with
  `Except PyErr`; `PyErr.valueError` is the uncaught `ValueError` coming out
  of `datetime.fromisoformat` (the cache code catches only
  `json.JSONDecodeError`, `KeyError` and, in `_cleanup`, `OSError`).
* Upstream (adapter) failures are a separate type `UpstreamError`, mirroring
  the httpx exception classes used by `_should_retry`.
* The age comparison `age.total_seconds() / 60 <= config.CACHE_TTL_MINUTES`
  over reals is equivalent to `now - ts ≤ TTL * 60` over integers, which is
  how `get_fresh` states it here.
* `asyncio.sleep` backoff delays only affect timing; they are still recorded
  (as a `List ℚ` of delay durations) but carry no other semantics.
-/

namespace FinDash

abbrev Time := Int

/-- An uncaught Python exception escaping a cache/orchestrator function.
The only such exception arising in this model is the `ValueError` raised by
`datetime.fromisoformat` on a malformed timestamp string. -/
inductive PyErr where
  | valueError
  deriving DecidableEq, Repr

/-- Classified upstream failure, mirroring the exception classes inspected by
`_should_retry` in src/app/utils/retry.py: httpx transport errors
(`TimeoutException`/`ConnectError`), `httpx.HTTPStatusError` with a status
code, and any other exception class. -/
inductive UpstreamError where
  | timeoutOrConnect
  | httpStatus (code : Nat)
  | otherError
  deriving DecidableEq, Repr

/-- `_should_retry` from src/app/utils/retry.py. -/
def should_retry : UpstreamError → Bool
  | .timeoutOrConnect => true
  | .httpStatus status => status == 429 || status ≥ 500
  | .otherError => true

/-- `_get_retry_delay` from src/app/utils/retry.py: 429 gets linear
`15 * (attempt + 1)` seconds, everything else exponential
`base_delay * 2 ^ attempt`. -/
def get_retry_delay (e : UpstreamError) (attempt : Nat) (base_delay : ℚ) : ℚ :=
  match e with
  | .httpStatus 429 => 15 * (attempt + 1)
  | _ => base_delay * 2 ^ attempt

/-- The retry loop of `retry_with_backoff` (src/app/utils/retry.py).
`remaining` is the number of retries still allowed (`max_retries - attempt`),
so the loop makes at most `max_retries + 1` attempts in total.
`retryOn` models the `retry_on` tuple of the decorator: an exception class
outside it propagates at once (observably the same as a non-retryable error).
Returns (final result, number of attempts made, backoff delays slept). -/
def retryLoop {α : Type} (retryOn : UpstreamError → Bool)
    (op : Nat → Except UpstreamError α) (base_delay : ℚ) :
    Nat → Nat → Except UpstreamError α × Nat × List ℚ
  | remaining, attempt =>
    match op attempt with
    | .ok v => (.ok v, 1, [])
    | .error e =>
      if retryOn e = false then (.error e, 1, [])
      else if should_retry e = false then (.error e, 1, [])
      else
        match remaining with
        | 0 => (.error e, 1, [])
        | r + 1 =>
          let d := get_retry_delay e attempt base_delay
          let rest := retryLoop retryOn op base_delay r (attempt + 1)
          (rest.1, rest.2.1 + 1, d :: rest.2.2)

/-- `retry_with_backoff(max_retries, retry_on)` applied to `op`: run the loop
from attempt 0 with `max_retries` retries still allowed. -/
def retry_with_backoff {α : Type} (retryOn : UpstreamError → Bool)
    (op : Nat → Except UpstreamError α) (base_delay : ℚ) (max_retries : Nat) :
    Except UpstreamError α × Nat × List ℚ :=
  retryLoop retryOn op base_delay max_retries 0

/-- Which upstream errors are `httpx.HTTPError` instances: all httpx
transport and status errors are; other exception classes are not. Used for
the `retry_on=(httpx.HTTPError,)` decoration of the Polygon and NewsDataHub
clients. -/
def httpxHTTPError : UpstreamError → Bool
  | .otherError => false
  | _ => true

/-- What `json.load` + field access + `fromisoformat` observe in one cache
file; see the module docstring. -/
inductive RawRecord (α : Type) where
  | malformedJson
  | missingTimestamp (data : α) (source : String)
  | badTimestamp (data : α) (source : String)
  | ok (data : α) (timestamp : Time) (source : String)
  deriving DecidableEq, Repr

/-- Whether a record would make `datetime.fromisoformat` raise `ValueError`. -/
def RawRecord.isBadTimestamp {α : Type} : RawRecord α → Bool
  | .badTimestamp _ _ => true
  | _ => false

/-- A cache file key: `(cache_type, ticker)`, i.e. the file name
`{cache_type}_{ticker}.json`. -/
abbrev Key := String × String

/-- The cache directory: one record per file name. -/
abbrev Store (α : Type) := List (Key × RawRecord α)

/-- Find the record stored for a key (first binding wins, mirroring the
uniqueness of file names in a directory). -/
def lookup {α : Type} : Store α → Key → Option (RawRecord α)
  | [], _ => none
  | (k', r) :: rest, k => if k' = k then some r else lookup rest k

/-- Overwrite-or-create the file for a key (what `open(path, "w")` does). -/
def storeInsert {α : Type} : Store α → Key → RawRecord α → Store α
  | [], k, r => [(k, r)]
  | (k', r') :: rest, k, r =>
    if k' = k then (k, r) :: rest else (k', r') :: storeInsert rest k r

/-- The configuration fields consumed by the core (src/app/config.py).
`Config.Valid` mirrors the `max(1, ...)` validation applied there. -/
structure Config where
  CACHE_TTL_MINUTES : Int
  CACHE_MAX_AGE_HOURS : Int
  MAX_RETRIES : Nat
  RETRY_BACKOFF_BASE : ℚ
  BACKGROUND_REFRESH : Bool
  RELATED_STOCKS : List (String × List String)

/-- The `max(1, ...)` validation in src/app/config.py guarantees both cache
durations are at least 1. -/
def Config.Valid (cfg : Config) : Prop :=
  1 ≤ cfg.CACHE_TTL_MINUTES ∧ 1 ≤ cfg.CACHE_MAX_AGE_HOURS

/-- The parsed dictionary `{data, timestamp, source}` returned by the cache
read methods. -/
structure CachedDict (α : Type) where
  data : α
  timestamp : Time
  source : String
  deriving DecidableEq, Repr

/-- `CacheService._format_age` (src/app/services/cache.py). Divisions are
Python `//` (floor). -/
def format_age (totalSeconds : Int) : String :=
  if totalSeconds < 60 then toString totalSeconds ++ "s ago"
  else if totalSeconds < 3600 then toString (Int.fdiv totalSeconds 60) ++ "m ago"
  else if totalSeconds < 86400 then toString (Int.fdiv totalSeconds 3600) ++ "h ago"
  else toString (Int.fdiv totalSeconds 86400) ++ "d ago"

/-- `CacheService.get_fresh`: miss when the file does not exist; caught
`JSONDecodeError`/`KeyError` → miss; `fromisoformat` `ValueError` is NOT
caught and escapes; otherwise return the record iff its age is within TTL
(`(now - ts) / 60 ≤ TTL` over reals, i.e. `now - ts ≤ TTL * 60`). -/
def get_fresh {α : Type} (cfg : Config) (store : Store α) (now : Time)
    (cache_type ticker : String) : Except PyErr (Option (CachedDict α)) :=
  match lookup store (cache_type, ticker) with
  | none => .ok none
  | some .malformedJson => .ok none
  | some (.missingTimestamp _ _) => .ok none
  | some (.badTimestamp _ _) => .error .valueError
  | some (.ok data ts source) =>
    if now - ts ≤ cfg.CACHE_TTL_MINUTES * 60 then .ok (some ⟨data, ts, source⟩)
    else .ok none

/-- `CacheService.get_stale`: like `get_fresh` but with no age check; the
returned in-memory dictionary gets `source = "fallback"` (the file is not
rewritten). The age is computed (for logging) before tagging, so a malformed
timestamp raises `ValueError` here too. -/
def get_stale {α : Type} (store : Store α) (_now : Time)
    (cache_type ticker : String) : Except PyErr (Option (CachedDict α)) :=
  match lookup store (cache_type, ticker) with
  | none => .ok none
  | some .malformedJson => .ok none
  | some (.missingTimestamp _ _) => .ok none
  | some (.badTimestamp _ _) => .error .valueError
  | some (.ok data ts _) => .ok (some ⟨data, ts, "fallback"⟩)

/-- `CacheService.get_age`: human-readable age of the record, `None` when the
file is missing or unreadable (same caught exceptions as `get_fresh`). -/
def get_age {α : Type} (store : Store α) (now : Time)
    (cache_type ticker : String) : Except PyErr (Option String) :=
  match lookup store (cache_type, ticker) with
  | none => .ok none
  | some .malformedJson => .ok none
  | some (.missingTimestamp _ _) => .ok none
  | some (.badTimestamp _ _) => .error .valueError
  | some (.ok _ ts _) => .ok (some (format_age (now - ts)))

/-- `CacheService._cleanup`: walk every cache file; a parseable record older
than the cutoff is unlinked, a record raising `JSONDecodeError`/`KeyError`
(or `OSError`) is unlinked unconditionally, but a record whose timestamp
string makes `fromisoformat` raise `ValueError` aborts the sweep: the
exception escapes, and that file and all files after it are left in place
(files already processed stay deleted). -/
def cleanupGo {α : Type} (cutoff : Time) : Store α → Except PyErr Unit × Store α
  | [] => (.ok (), [])
  | (k, r) :: rest =>
    match r with
    | .ok data ts source =>
      if ts < cutoff then cleanupGo cutoff rest
      else
        let res := cleanupGo cutoff rest
        (res.1, (k, .ok data ts source) :: res.2)
    | .badTimestamp d s => (.error .valueError, (k, .badTimestamp d s) :: rest)
    | .malformedJson => cleanupGo cutoff rest
    | .missingTimestamp _ _ => cleanupGo cutoff rest

/-- `CacheService.set`: write `{data, timestamp: now, source: "api"}` to the
key's file, then run `_cleanup` with cutoff `now - CACHE_MAX_AGE_HOURS` over
the whole directory (including the just-written file). Returns the sweep's
outcome (it may raise) together with the resulting directory. -/
def set {α : Type} (cfg : Config) (store : Store α) (now : Time)
    (cache_type ticker : String) (data : α) : Except PyErr Unit × Store α :=
  let written := storeInsert store (cache_type, ticker) (.ok data now "api")
  let cutoff := now - cfg.CACHE_MAX_AGE_HOURS * 3600
  cleanupGo cutoff written

/-- The spec's `origin` field of a CacheEntry, as derived from the persisted
`source` tag: `"api"` is a live entry, anything else a fallback tag. -/
inductive Origin where
  | live
  | fallback
  deriving DecidableEq, Repr

def sourceOrigin (source : String) : Origin :=
  if source = "api" then .live else .fallback

/-- The dictionary `DataService._fetch_with_cache` hands back to the UI:
the payload merged with a `data_age` string and an `is_fallback` flag. -/
structure FetchOutcome (α : Type) where
  data : α
  data_age : Option String
  is_fallback : Bool
  deriving DecidableEq, Repr

/-- The `except Exception` branch of `DataService._fetch_with_cache`: try the
stale cache; note that `get_stale`/`get_age` run inside the handler, so a
`ValueError` they raise escapes. `calls` carries the adapter attempts already
made. -/
def fallbackReturn {α : Type} (store : Store α) (now : Time)
    (cache_type cache_key : String) (calls : Nat) :
    Except PyErr (Option (FetchOutcome α)) × Store α × Nat :=
  match get_stale store now cache_type cache_key with
  | .error e => (.error e, store, calls)
  | .ok (some fb) =>
    match get_age store now cache_type cache_key with
    | .error e => (.error e, store, calls)
    | .ok age => (.ok (some ⟨fb.data, age, true⟩), store, calls)
  | .ok none => (.ok none, store, calls)

/-- `DataService._fetch_with_cache` (src/app/services/data_service.py).
`fetch_fn` is the adapter operation indexed by attempt number (the API client
methods are decorated with `@retry_with_backoff(retry_on=retryOn)`). Returns
(outcome or escaped exception, resulting cache directory, number of adapter
invocations). A fresh hit returns the cached payload together with
`data_age = get_age(...)` and `is_fallback = False`; in background-refresh
mode the stale cache is the only other source; otherwise the adapter is
called through the retry executor, a success is written back (a `ValueError`
escaping `set`'s sweep is caught by the same `except Exception` and falls
through to the stale fallback), and any failure falls back to the stale
cache. -/
def fetch_with_cache {α : Type} (cfg : Config) (store : Store α) (now : Time)
    (cache_type cache_key : String) (retryOn : UpstreamError → Bool)
    (fetch_fn : Nat → Except UpstreamError α) :
    Except PyErr (Option (FetchOutcome α)) × Store α × Nat :=
  match get_fresh cfg store now cache_type cache_key with
  | .error e => (.error e, store, 0)
  | .ok (some cached) =>
    match get_age store now cache_type cache_key with
    | .error e => (.error e, store, 0)
    | .ok age => (.ok (some ⟨cached.data, age, false⟩), store, 0)
  | .ok none =>
    if cfg.BACKGROUND_REFRESH then
      match get_stale store now cache_type cache_key with
      | .error e => (.error e, store, 0)
      | .ok (some fb) =>
        match get_age store now cache_type cache_key with
        | .error e => (.error e, store, 0)
        | .ok age => (.ok (some ⟨fb.data, age, true⟩), store, 0)
      | .ok none => (.ok none, store, 0)
    else
      let r := retry_with_backoff retryOn fetch_fn cfg.RETRY_BACKOFF_BASE cfg.MAX_RETRIES
      match r.1 with
      | .ok data =>
        let w := set cfg store now cache_type cache_key data
        match w.1 with
        | .ok _ => (.ok (some ⟨data, none, false⟩), w.2, r.2.1)
        | .error _ => fallbackReturn w.2 now cache_type cache_key r.2.1
      | .error _ => fallbackReturn store now cache_type cache_key r.2.1

/-- `DataService.get_stock_data`: `_fetch_with_cache` on cache type
`"polygon"`; the Polygon client is decorated with
`retry_on=(httpx.HTTPError,)`. -/
def get_stock_data {α : Type} (cfg : Config) (store : Store α) (now : Time)
    (ticker : String) (polygonOp : Nat → Except UpstreamError α) :
    Except PyErr (Option (FetchOutcome α)) × Store α × Nat :=
  fetch_with_cache cfg store now "polygon" ticker httpxHTTPError polygonOp

/-- `DataService.get_news`: `_fetch_with_cache` on cache type `"news"`. -/
def get_news {α : Type} (cfg : Config) (store : Store α) (now : Time)
    (ticker : String) (newsOp : Nat → Except UpstreamError α) :
    Except PyErr (Option (FetchOutcome α)) × Store α × Nat :=
  fetch_with_cache cfg store now "news" ticker httpxHTTPError newsOp

/-- The dictionary `DataService.get_insights` returns: payload plus
`data_age` and `is_cached`. -/
structure InsightOutcome (α : Type) where
  data : α
  data_age : Option String
  is_cached : Bool
  deriving DecidableEq, Repr

/-- The generation tail of `DataService.get_insights` (from the
`if config.BACKGROUND_REFRESH: return None` line on): in background mode
return `None`; otherwise fetch price then news (inside `try`, so an escaped
exception yields `None`), require both, call
`openai.generate_insights` (decorated with `retry_on=(APIError,)`, modelled
as catching every error the operation raises), write the result back
(`set` raising is caught by the same handler → `None`).
The result's last component records whether the OpenAI adapter was invoked;
the `Nat` counts all adapter invocations (price + news + OpenAI). -/
def insightsGenerate {α : Type} (cfg : Config) (store : Store α) (now : Time)
    (ticker : String) (polygonOp newsOp : Nat → Except UpstreamError α)
    (openaiOp : FetchOutcome α → FetchOutcome α → Nat → Except UpstreamError α) :
    Except PyErr (Option (InsightOutcome α)) × Store α × Nat × Bool :=
  if cfg.BACKGROUND_REFRESH then (.ok none, store, 0, false)
  else
    let p := get_stock_data cfg store now ticker polygonOp
    match p.1 with
    | .error _ => (.ok none, p.2.1, p.2.2, false)
    | .ok pOpt =>
      let nw := get_news cfg p.2.1 now ticker newsOp
      match nw.1 with
      | .error _ => (.ok none, nw.2.1, p.2.2 + nw.2.2, false)
      | .ok nOpt =>
        match pOpt, nOpt with
        | some price_data, some news_data =>
          let g := retry_with_backoff (fun _ => true) (openaiOp price_data news_data)
            cfg.RETRY_BACKOFF_BASE cfg.MAX_RETRIES
          match g.1 with
          | .error _ => (.ok none, nw.2.1, p.2.2 + nw.2.2 + g.2.1, true)
          | .ok data =>
            let w := set cfg nw.2.1 now "insights" ticker data
            match w.1 with
            | .error _ => (.ok none, w.2, p.2.2 + nw.2.2 + g.2.1, true)
            | .ok _ =>
              (.ok (some ⟨data, none, false⟩), w.2, p.2.2 + nw.2.2 + g.2.1, true)
        | _, _ => (.ok none, nw.2.1, p.2.2 + nw.2.2, false)

/-- `DataService.get_insights`: unless the caller forces a refresh in
interactive mode, check the cache with `get_stale` (no TTL for insights);
a hit returns the cached payload with its age and `is_cached = True`. On a
miss (or a forced refresh) fall through to `insightsGenerate`. -/
def get_insights {α : Type} (cfg : Config) (store : Store α) (now : Time)
    (ticker : String) (force_refresh : Bool)
    (polygonOp newsOp : Nat → Except UpstreamError α)
    (openaiOp : FetchOutcome α → FetchOutcome α → Nat → Except UpstreamError α) :
    Except PyErr (Option (InsightOutcome α)) × Store α × Nat × Bool :=
  if !force_refresh || cfg.BACKGROUND_REFRESH then
    match get_stale store now "insights" ticker with
    | .error e => (.error e, store, 0, false)
    | .ok (some cached) =>
      match get_age store now "insights" ticker with
      | .error e => (.error e, store, 0, false)
      | .ok age => (.ok (some ⟨cached.data, age, true⟩), store, 0, false)
    | .ok none => insightsGenerate cfg store now ticker polygonOp newsOp openaiOp
  else insightsGenerate cfg store now ticker polygonOp newsOp openaiOp

/-- The stale-fallback tail shared by the failure paths of
`DataService.get_related_stocks` (an empty dictionary is modelled as
`none`). -/
def relatedFallback {α : Type} (store : Store α) (now : Time)
    (cache_key : String) (calls : Nat) :
    Except PyErr (Option α) × Store α × Nat :=
  match get_stale store now "related" cache_key with
  | .error e => (.error e, store, calls)
  | .ok (some fb) => (.ok (some fb.data), store, calls)
  | .ok none => (.ok none, store, calls)

/-- `DataService.get_related_stocks`: fresh cache on key
`related_{ticker}`, then (background mode) stale-or-empty, then the
basket lookup `config.RELATED_STOCKS.get(ticker, [])` (empty basket →
empty result, no upstream call), then the Polygon fan-out call
(`relatedFetch` returns the aggregated mapping — `none` for an empty/falsy
dictionary — together with its raw-call count). A truthy result is written
back and returned; an empty result or an exception falls back to the stale
cache. `set` raising inside the `try` is caught and also falls back. -/
def ds_get_related_stocks {α : Type} (cfg : Config) (store : Store α)
    (now : Time) (ticker : String)
    (relatedFetch : List String → Except UpstreamError (Option α) × Nat) :
    Except PyErr (Option α) × Store α × Nat :=
  let cache_key := "related_" ++ ticker
  match get_fresh cfg store now "related" cache_key with
  | .error e => (.error e, store, 0)
  | .ok (some cached) => (.ok (some cached.data), store, 0)
  | .ok none =>
    if cfg.BACKGROUND_REFRESH then
      match get_stale store now "related" cache_key with
      | .error e => (.error e, store, 0)
      | .ok (some fb) => (.ok (some fb.data), store, 0)
      | .ok none => (.ok none, store, 0)
    else
      match (cfg.RELATED_STOCKS.lookup ticker).getD [] with
      | [] => (.ok none, store, 0)
      | t :: ts =>
        let r := relatedFetch (t :: ts)
        match r.1 with
        | .ok (some data) =>
          let w := set cfg store now "related" cache_key data
          match w.1 with
          | .ok _ => (.ok (some data), w.2, r.2)
          | .error _ => relatedFallback w.2 now cache_key r.2
        | .ok none => relatedFallback store now cache_key r.2
        | .error _ => relatedFallback store now cache_key r.2

/-- One entry of the related-stocks mapping built by
`PolygonClient.get_related_stocks` (src/app/api/polygon.py). -/
structure RelatedEntry where
  current : ℚ
  change : ℚ
  change_pct : ℚ
  deriving DecidableEq, Repr

/-- The inner `fetch_ticker` coroutine of `PolygonClient.get_related_stocks`:
`raw` models the HTTP call, yielding the `"results"` closing prices (sorted
descending) or a raised error. The whole body sits in a `try`/`except
Exception` returning `(ticker, None)`, so a raised error, fewer than 2 data
points, or a zero previous close (`ZeroDivisionError`) all yield `None`.
The `@retry_with_backoff` decoration on it never fires because the body
never raises. -/
def fetch_ticker (raw : String → Except UpstreamError (List ℚ))
    (ticker : String) : String × Option RelatedEntry :=
  match raw ticker with
  | .error _ => (ticker, none)
  | .ok res =>
    match res with
    | current :: previous :: _ =>
      if previous = 0 then (ticker, none)
      else (ticker, some ⟨current, current - previous,
        (current - previous) / previous * 100⟩)
    | _ => (ticker, none)

/-- `PolygonClient.get_related_stocks`: `asyncio.gather` over one
`fetch_ticker` task per ticker (the list mirrors gather's input order), then
the comprehension keeping only the tickers whose data is not `None`. -/
def polygon_get_related_stocks (raw : String → Except UpstreamError (List ℚ))
    (tickers : List String) : List (String × RelatedEntry) :=
  (tickers.map (fetch_ticker raw)).filterMap
    (fun p => p.2.map (fun d => (p.1, d)))

/-- The three source adapters and the related fan-out, as the orchestrator
sees them: per-attempt operations for price/news, the OpenAI generation, and
the aggregated related fetch (result plus raw-call count). -/
structure Adapters (α : Type) where
  polygonOp : String → Nat → Except UpstreamError α
  newsOp : String → Nat → Except UpstreamError α
  openaiOp : String → FetchOutcome α → FetchOutcome α → Nat → Except UpstreamError α
  relatedFetch : List String → Except UpstreamError (Option α) × Nat

/-- One orchestrator read request, as issued by the UI layer. -/
inductive ReadReq where
  | stock (ticker : String)
  | news (ticker : String)
  | insights (ticker : String) (force_refresh : Bool)
  | related (ticker : String)

/-- Run one orchestrator read; result is the cache directory afterwards and
the number of source-adapter invocations the read performed. -/
def runRead {α : Type} (cfg : Config) (ad : Adapters α) (now : Time) :
    ReadReq → Store α → Store α × Nat
  | .stock t, store =>
    let r := get_stock_data cfg store now t (ad.polygonOp t)
    (r.2.1, r.2.2)
  | .news t, store =>
    let r := get_news cfg store now t (ad.newsOp t)
    (r.2.1, r.2.2)
  | .insights t force, store =>
    let r := get_insights cfg store now t force (ad.polygonOp t) (ad.newsOp t)
      (ad.openaiOp t)
    (r.2.1, r.2.2.1)
  | .related t, store =>
    let r := ds_get_related_stocks cfg store now t ad.relatedFetch
    (r.2.1, r.2.2)

/-- Run a sequence of orchestrator reads, threading the cache directory and
summing adapter invocations. -/
def runReads {α : Type} (cfg : Config) (ad : Adapters α) (now : Time) :
    List ReadReq → Store α → Store α × Nat
  | [], store => (store, 0)
  | req :: rest, store =>
    let r := runRead cfg ad now req store
    let rr := runReads cfg ad now rest r.1
    (rr.1, r.2 + rr.2)

/-- One Cache Store operation, for stating frame properties over sequences. -/
inductive CacheOp (α : Type) where
  | opGetFresh (cache_type ticker : String)
  | opGetStale (cache_type ticker : String)
  | opGetAge (cache_type ticker : String)
  | opSet (cache_type ticker : String) (data : α)

def CacheOp.isWrite {α : Type} : CacheOp α → Bool
  | .opSet _ _ _ => true
  | _ => false

/-- Effect of one Cache Store operation on the directory. The three read
methods open files with mode "r" only and never write or unlink, so they
leave the directory exactly as it is; `set` writes and sweeps. -/
def applyOp {α : Type} (cfg : Config) (now : Time) :
    CacheOp α → Store α → Store α
  | .opGetFresh _ _, store => store
  | .opGetStale _ _, store => store
  | .opGetAge _ _, store => store
  | .opSet ct t d, store => (set cfg store now ct t d).2

def applyOps {α : Type} (cfg : Config) (now : Time) :
    List (CacheOp α) → Store α → Store α
  | [], store => store
  | op :: rest, store => applyOps cfg now rest (applyOp cfg now op store)

/-- The default configuration snapshot of src/app/config.py in interactive
(local) deployment: TTL 10 minutes, retention 24 hours, 3 retries, backoff
base 0.5 s, `BACKGROUND_REFRESH` unset, Netflix's related basket. -/
def cfg0 : Config := ⟨10, 24, 3, 1/2, false, [("NFLX", ["DIS", "PARA", "WBD"])]⟩

/-- The same snapshot with `BACKGROUND_REFRESH=true`. -/
def cfgBg : Config := ⟨10, 24, 3, 1/2, true, [("NFLX", ["DIS", "PARA", "WBD"])]⟩

/-! ### Helper lemmas about the store, the sweep and the retry loop -/

theorem lookup_storeInsert_self {α : Type} (s : Store α) (k : Key)
    (r : RawRecord α) : lookup (storeInsert s k r) k = some r := by
  induction s with
  | nil => simp [storeInsert, lookup]
  | cons hd tl ih =>
    obtain ⟨k', r'⟩ := hd
    by_cases h : k' = k
    · simp [storeInsert, h, lookup]
    · simp [storeInsert, h, lookup, ih]

theorem lookup_storeInsert_ne {α : Type} (s : Store α) (k k' : Key)
    (r : RawRecord α) (h : k' ≠ k) :
    lookup (storeInsert s k r) k' = lookup s k' := by
  induction s with
  | nil => simp [storeInsert, lookup, Ne.symm h]
  | cons hd tl ih =>
    obtain ⟨k'', r''⟩ := hd
    by_cases hk : k'' = k
    · subst hk
      simp [storeInsert, lookup, Ne.symm h]
    · simp [storeInsert, hk, lookup, ih]

theorem mem_storeInsert {α : Type} (s : Store α) (k : Key) (r : RawRecord α)
    (p : Key × RawRecord α) (hp : p ∈ storeInsert s k r) :
    p ∈ s ∨ p = (k, r) := by
  induction s with
  | nil => simp [storeInsert] at hp; simp [hp]
  | cons hd tl ih =>
    obtain ⟨k', r'⟩ := hd
    by_cases h : k' = k
    · simp [storeInsert, h] at hp
      rcases hp with hp | hp
      · right; simp [hp]
      · left; simp [hp]
    · simp [storeInsert, h] at hp
      rcases hp with hp | hp
      · left; simp [hp]
      · rcases ih hp with hh | hh
        · left; simp [hh]
        · right; exact hh

theorem mem_map_fst_storeInsert {α : Type} (s : Store α) (k : Key)
    (r : RawRecord α) (x : Key) (hx : x ∈ (storeInsert s k r).map Prod.fst) :
    x ∈ s.map Prod.fst ∨ x = k := by
  simp only [List.mem_map] at hx
  obtain ⟨p, hp, hpx⟩ := hx
  rcases mem_storeInsert s k r p hp with h | h
  · left; exact List.mem_map.mpr ⟨p, h, hpx⟩
  · right; rw [h] at hpx; exact hpx.symm ▸ rfl

theorem nodup_map_fst_storeInsert {α : Type} (s : Store α) (k : Key)
    (r : RawRecord α) (hnd : (s.map Prod.fst).Nodup) :
    ((storeInsert s k r).map Prod.fst).Nodup := by
  induction s with
  | nil => simp [storeInsert]
  | cons hd tl ih =>
    obtain ⟨k', r'⟩ := hd
    simp only [List.map_cons, List.nodup_cons] at hnd
    by_cases h : k' = k
    · subst h
      simpa [storeInsert] using hnd
    · have hrw : storeInsert ((k', r') :: tl) k r = (k', r') :: storeInsert tl k r := by
        simp [storeInsert, h]
      rw [hrw, List.map_cons, List.nodup_cons]
      refine ⟨fun hmem => ?_, ih hnd.2⟩
      rcases mem_map_fst_storeInsert tl k r k' hmem with hh | hh
      · exact hnd.1 hh
      · exact h hh

theorem lookup_eq_none_of_not_mem {α : Type} (s : Store α) (k : Key)
    (h : k ∉ s.map Prod.fst) : lookup s k = none := by
  induction s with
  | nil => rfl
  | cons hd tl ih =>
    obtain ⟨k', r'⟩ := hd
    simp only [List.map_cons, List.mem_cons] at h
    push_neg at h
    simp [lookup, Ne.symm h.1, ih h.2]

theorem lookup_filter_eq_none {α : Type} (P : Key × RawRecord α → Bool)
    (s : Store α) (hnd : (s.map Prod.fst).Nodup) (k : Key) (r : RawRecord α)
    (h : lookup s k = some r) (hP : P (k, r) = false) :
    lookup (s.filter P) k = none := by
  induction s with
  | nil => simp [lookup] at h
  | cons hd tl ih =>
    obtain ⟨k', r'⟩ := hd
    simp only [List.map_cons, List.nodup_cons] at hnd
    by_cases hk : k' = k
    · subst hk
      simp [lookup] at h
      subst h
      rw [List.filter_cons]
      have hnone : lookup (List.filter P tl) k' = none := by
        apply lookup_eq_none_of_not_mem
        intro hmem
        exact hnd.1 (List.Sublist.mem hmem
          (List.Sublist.map Prod.fst (List.filter_sublist tl)))
      simp [hP, hnone, lookup]
    · simp [lookup, hk] at h
      rw [List.filter_cons]
      by_cases hkeep : P (k', r') = true
      · simp only [hkeep, if_pos]
        simp only [lookup, if_neg hk]
        exact ih hnd.2 h
      · simp only [hkeep, Bool.false_eq_true, if_neg]
        exact ih hnd.2 h

/-- Which records survive the retention sweep when no record aborts it:
parseable and not older than the cutoff. -/
def keepsRec {α : Type} (cutoff : Time) : RawRecord α → Bool
  | .ok _ ts _ => !decide (ts < cutoff)
  | _ => false

theorem cleanupGo_no_bad {α : Type} (cutoff : Time) (s : Store α)
    (h : ∀ p ∈ s, p.2.isBadTimestamp = false) :
    cleanupGo cutoff s = (.ok (), s.filter (fun p => keepsRec cutoff p.2)) := by
  induction s with
  | nil => simp [cleanupGo]
  | cons hd tl ih =>
    obtain ⟨k, r⟩ := hd
    have hh := h (k, r) (List.mem_cons_self _ _)
    have ht : ∀ p ∈ tl, p.2.isBadTimestamp = false :=
      fun p hp => h p (List.mem_cons_of_mem _ hp)
    cases r with
    | ok d ts src =>
      by_cases hc : ts < cutoff
      · simp [cleanupGo, hc, ih ht, List.filter_cons, keepsRec]
      · simp [cleanupGo, hc, ih ht, List.filter_cons, keepsRec]
    | badTimestamp d src => simp [RawRecord.isBadTimestamp] at hh
    | malformedJson => simp [cleanupGo, ih ht, List.filter_cons, keepsRec]
    | missingTimestamp d src =>
      simp [cleanupGo, ih ht, List.filter_cons, keepsRec]

theorem cleanupGo_lookup_ok {α : Type} (cutoff : Time) (s : Store α) (k : Key)
    (d : α) (ts : Time) (src : String)
    (h : lookup s k = some (.ok d ts src)) (hts : ¬ ts < cutoff) :
    lookup (cleanupGo cutoff s).2 k = some (.ok d ts src) := by
  induction s with
  | nil => simp [lookup] at h
  | cons hd tl ih =>
    obtain ⟨k', r'⟩ := hd
    by_cases hk : k' = k
    · subst hk
      simp [lookup] at h
      subst h
      simp [cleanupGo, hts, lookup]
    · simp [lookup, hk] at h
      cases r' with
      | ok d' ts' s' =>
        by_cases hc : ts' < cutoff
        · simpa [cleanupGo, hc] using ih h
        · simpa [cleanupGo, hc, lookup, hk] using ih h
      | badTimestamp d' s' => simp [cleanupGo, lookup, hk, h]
      | malformedJson => simpa [cleanupGo] using ih h
      | missingTimestamp d' s' => simpa [cleanupGo] using ih h

theorem retryLoop_attempts_le {α : Type} (retryOn : UpstreamError → Bool)
    (op : Nat → Except UpstreamError α) (base : ℚ) :
    ∀ remaining attempt,
      (retryLoop retryOn op base remaining attempt).2.1 ≤ remaining + 1 := by
  intro remaining
  induction remaining with
  | zero =>
    intro a
    unfold retryLoop
    cases op a with
    | ok v => simp
    | error e =>
      by_cases h1 : retryOn e = false
      · simp [h1]
      · by_cases h2 : should_retry e = false
        · simp [h1, h2]
        · simp [h1, h2]
  | succ r ih =>
    intro a
    unfold retryLoop
    cases op a with
    | ok v => simp
    | error e =>
      by_cases h1 : retryOn e = false
      · simp [h1]
      · by_cases h2 : should_retry e = false
        · simp [h1, h2]
        · simp [h1, h2]
          have := ih (a + 1)
          omega

theorem retryLoop_all_fail {α : Type} (retryOn : UpstreamError → Bool)
    (op : Nat → Except UpstreamError α) (base : ℚ)
    (h : ∀ i, ∃ e, op i = .error e) :
    ∀ remaining attempt,
      ∃ e', (retryLoop retryOn op base remaining attempt).1 = .error e' := by
  intro remaining
  induction remaining with
  | zero =>
    intro a
    obtain ⟨e, he⟩ := h a
    unfold retryLoop
    rw [he]
    by_cases h1 : retryOn e = false
    · exact ⟨e, by simp [h1]⟩
    · by_cases h2 : should_retry e = false
      · exact ⟨e, by simp [h1, h2]⟩
      · exact ⟨e, by simp [h1, h2]⟩
  | succ r ih =>
    intro a
    obtain ⟨e, he⟩ := h a
    unfold retryLoop
    rw [he]
    by_cases h1 : retryOn e = false
    · exact ⟨e, by simp [h1]⟩
    · by_cases h2 : should_retry e = false
      · exact ⟨e, by simp [h1, h2]⟩
      · obtain ⟨e', he'⟩ := ih (a + 1)
        exact ⟨e', by simp [h1, h2, he']⟩

theorem retryLoop_exhaust {α : Type} (retryOn : UpstreamError → Bool)
    (op : Nat → Except UpstreamError α) (base : ℚ) :
    ∀ remaining attempt,
      (∀ i, attempt ≤ i → i ≤ attempt + remaining →
        ∃ e, op i = .error e ∧ retryOn e = true ∧ should_retry e = true) →
      ∃ e, op (attempt + remaining) = .error e ∧
        (retryLoop retryOn op base remaining attempt).1 = .error e ∧
        (retryLoop retryOn op base remaining attempt).2.1 = remaining + 1 := by
  intro remaining
  induction remaining with
  | zero =>
    intro a h
    obtain ⟨e, he, hrOn, hs⟩ := h a (le_refl a) (by omega)
    refine ⟨e, by simpa using he, ?_, ?_⟩
    · unfold retryLoop; rw [he]; simp [hrOn, hs]
    · unfold retryLoop; rw [he]; simp [hrOn, hs]
  | succ r ih =>
    intro a h
    obtain ⟨e, he, hrOn, hs⟩ := h a (le_refl a) (by omega)
    obtain ⟨e', he', hl1, hl2⟩ := ih (a + 1) (fun i hi1 hi2 => h i (by omega) (by omega))
    refine ⟨e', ?_, ?_, ?_⟩
    · rw [show a + (r + 1) = (a + 1) + r by omega]; exact he'
    · unfold retryLoop; rw [he]; simp [hrOn, hs, hl1]
    · unfold retryLoop; rw [he]; simp [hrOn, hs, hl2]

/-- C6: the Retry Executor makes at most `max_retries + 1` attempts in total;
a first failure that is a non-retryable HTTP 4xx (other than 429) is raised
immediately after exactly one attempt; and when every attempt fails with a
retryable (and caught) error, the failure observed on the final attempt is
what is raised, after exactly `max_retries + 1` attempts. -/
theorem C6_retry_executor {α : Type} (retryOn : UpstreamError → Bool)
    (op : Nat → Except UpstreamError α) (base : ℚ) (max_retries : Nat) :
    (retry_with_backoff retryOn op base max_retries).2.1 ≤ max_retries + 1 ∧
    (∀ code, 400 ≤ code → code < 500 → code ≠ 429 →
      op 0 = .error (.httpStatus code) →
      (retry_with_backoff retryOn op base max_retries).1 =
        .error (.httpStatus code) ∧
      (retry_with_backoff retryOn op base max_retries).2.1 = 1) ∧
    ((∀ i, i ≤ max_retries →
        ∃ e, op i = .error e ∧ retryOn e = true ∧ should_retry e = true) →
      ∃ e, op max_retries = .error e ∧
        (retry_with_backoff retryOn op base max_retries).1 = .error e ∧
        (retry_with_backoff retryOn op base max_retries).2.1 = max_retries + 1) := by
  refine ⟨retryLoop_attempts_le retryOn op base max_retries 0, ?_, ?_⟩
  · intro code h4a h4b h429 hop
    have hbeq : (code == 429) = false := by
      simp only [beq_eq_false_iff_ne, ne_eq]
      exact h429
    have hge : decide (code ≥ 500) = false := by
      simp only [decide_eq_false_iff_not]
      omega
    have hs : should_retry (.httpStatus code) = false := by
      simp [should_retry, hbeq, hge]
    unfold retry_with_backoff
    cases max_retries with
    | zero =>
      unfold retryLoop
      rw [hop]
      by_cases h1 : retryOn (.httpStatus code) = false
      · simp [h1]
      · simp [h1, hs]
    | succ r =>
      unfold retryLoop
      rw [hop]
      by_cases h1 : retryOn (.httpStatus code) = false
      · simp [h1]
      · simp [h1, hs]
  · intro hall
    have h := retryLoop_exhaust retryOn op base max_retries 0
      (fun i hi1 hi2 => hall i (by omega))
    simpa using h

/-- Witness for C6: a 404 client error on the first attempt with
`max_retries = 2` is raised after exactly one attempt. -/
theorem C6_retry_executor_witness :
    (retry_with_backoff (fun _ => true)
      (fun _ => (.error (.httpStatus 404) : Except UpstreamError Nat)) 1 2).1 =
      .error (.httpStatus 404) ∧
    (retry_with_backoff (fun _ => true)
      (fun _ => (.error (.httpStatus 404) : Except UpstreamError Nat)) 1 2).2.1 = 1 :=
  (C6_retry_executor (fun _ => true)
    (fun _ => (.error (.httpStatus 404) : Except UpstreamError Nat)) 1 2).2.1
    404 (by decide) (by decide) (by decide) rfl

/-- Counterexample to C1 as stated: with a fresh 0-second-old cached record
for `("polygon", "NFLX")`, `_fetch_with_cache` returns the cached payload
with `is_fallback = False` but `data_age = "0s ago"` — present, not absent
(the adapter is indeed not invoked: 0 calls). -/
theorem C1_cex :
    (fetch_with_cache cfg0
      [(("polygon", "NFLX"), RawRecord.ok (42 : Nat) 0 "api")] 0 "polygon"
      "NFLX" httpxHTTPError (fun _ => .error .timeoutOrConnect)).1 =
      .ok (some ⟨42, some "0s ago", false⟩) ∧
    (some "0s ago" : Option String) ≠ none ∧
    (fetch_with_cache cfg0
      [(("polygon", "NFLX"), RawRecord.ok (42 : Nat) 0 "api")] 0 "polygon"
      "NFLX" httpxHTTPError (fun _ => .error .timeoutOrConnect)).2.2 = 0 :=
  ⟨rfl, by decide, rfl⟩

/-- C1 (amended): for every (kind, key) whose cache entry is fresh (age
within TTL), the orchestrator's fetch returns the cached payload with
`is_fallback = false` and `data_age` equal to the entry's formatted age
(present, not absent), leaves the store unchanged, and does not invoke the
source adapter (0 adapter calls, for any adapter operation). -/
theorem C1_fresh_hit {α : Type} (cfg : Config) (store : Store α) (now : Time)
    (cache_type cache_key : String) (retryOn : UpstreamError → Bool)
    (op : Nat → Except UpstreamError α) (d : α) (ts : Time) (src : String)
    (hrec : lookup store (cache_type, cache_key) = some (.ok d ts src))
    (hfresh : now - ts ≤ cfg.CACHE_TTL_MINUTES * 60) :
    fetch_with_cache cfg store now cache_type cache_key retryOn op =
      (.ok (some ⟨d, some (format_age (now - ts)), false⟩), store, 0) := by
  unfold fetch_with_cache get_fresh get_age
  rw [hrec]
  simp [hfresh]

/-- Witness for C1 (amended): a 1-minute-old entry with TTL 10 minutes. -/
theorem C1_fresh_hit_witness :
    fetch_with_cache cfg0
      [(("polygon", "NFLX"), RawRecord.ok (7 : Nat) 0 "api")] 60 "polygon"
      "NFLX" httpxHTTPError (fun _ => .ok 9) =
      (.ok (some ⟨7, some (format_age 60), false⟩),
        [(("polygon", "NFLX"), RawRecord.ok (7 : Nat) 0 "api")], 0) :=
  C1_fresh_hit cfg0 _ 60 "polygon" "NFLX" httpxHTTPError _ 7 0 "api" rfl
    (by decide)

theorem fallbackReturn_ok {α : Type} (store : Store α) (now : Time)
    (ct k : String) (calls : Nat) (d : α) (ts : Time) (s : String)
    (h : lookup store (ct, k) = some (.ok d ts s)) :
    fallbackReturn store now ct k calls =
      (.ok (some ⟨d, some (format_age (now - ts)), true⟩), store, calls) := by
  unfold fallbackReturn get_stale get_age
  rw [h]

theorem fallbackReturn_none {α : Type} (store : Store α) (now : Time)
    (ct k : String) (calls : Nat)
    (h : lookup store (ct, k) = none) :
    fallbackReturn store now ct k calls = (.ok none, store, calls) := by
  unfold fallbackReturn get_stale
  rw [h]

theorem fallbackReturn_malformed {α : Type} (store : Store α) (now : Time)
    (ct k : String) (calls : Nat)
    (h : lookup store (ct, k) = some .malformedJson) :
    fallbackReturn store now ct k calls = (.ok none, store, calls) := by
  unfold fallbackReturn get_stale
  rw [h]

theorem fallbackReturn_missing {α : Type} (store : Store α) (now : Time)
    (ct k : String) (calls : Nat) (d : α) (s : String)
    (h : lookup store (ct, k) = some (.missingTimestamp d s)) :
    fallbackReturn store now ct k calls = (.ok none, store, calls) := by
  unfold fallbackReturn get_stale
  rw [h]

/-- C2: in interactive mode, when the fresh check misses and the upstream
call fails on every attempt (exhausted retries or a non-retryable error),
the fetch returns the stale cached entry with `is_fallback = true` and its
formatted `data_age` when a parseable entry is present, returns absent when
none is present (missing file, malformed JSON, missing timestamp field), in
no case propagates any exception (upstream or otherwise) to the caller, and
leaves the store unchanged. (A record with a malformed timestamp string is
impossible under the premise: it would already have raised during the fresh
check, before the upstream call.) -/
theorem C2_upstream_failure {α : Type} (cfg : Config) (store : Store α)
    (now : Time) (cache_type cache_key : String)
    (retryOn : UpstreamError → Bool) (op : Nat → Except UpstreamError α)
    (hbg : cfg.BACKGROUND_REFRESH = false)
    (hmiss : get_fresh cfg store now cache_type cache_key = .ok none)
    (hfail : ∀ i, ∃ e, op i = .error e) :
    (∀ d ts s, lookup store (cache_type, cache_key) = some (.ok d ts s) →
      (fetch_with_cache cfg store now cache_type cache_key retryOn op).1 =
        .ok (some ⟨d, some (format_age (now - ts)), true⟩)) ∧
    (lookup store (cache_type, cache_key) = none →
      (fetch_with_cache cfg store now cache_type cache_key retryOn op).1 =
        .ok none) ∧
    (lookup store (cache_type, cache_key) = some .malformedJson →
      (fetch_with_cache cfg store now cache_type cache_key retryOn op).1 =
        .ok none) ∧
    (∀ d s,
      lookup store (cache_type, cache_key) = some (.missingTimestamp d s) →
      (fetch_with_cache cfg store now cache_type cache_key retryOn op).1 =
        .ok none) ∧
    (∀ e, (fetch_with_cache cfg store now cache_type cache_key retryOn op).1 ≠
      .error e) ∧
    (fetch_with_cache cfg store now cache_type cache_key retryOn op).2.1 =
      store := by
  obtain ⟨e, he⟩ :=
    retryLoop_all_fail retryOn op cfg.RETRY_BACKOFF_BASE hfail cfg.MAX_RETRIES 0
  have hfetch : fetch_with_cache cfg store now cache_type cache_key retryOn op =
      fallbackReturn store now cache_type cache_key
        (retryLoop retryOn op cfg.RETRY_BACKOFF_BASE cfg.MAX_RETRIES 0).2.1 := by
    unfold fetch_with_cache retry_with_backoff
    rw [hmiss, hbg]
    simp only [Bool.false_eq_true, if_false]
    rw [he]
  rw [hfetch]
  refine ⟨?_, ?_, ?_, ?_, ?_, ?_⟩
  · intro d ts s hl
    rw [fallbackReturn_ok _ _ _ _ _ d ts s hl]
  · intro hl
    rw [fallbackReturn_none _ _ _ _ _ hl]
  · intro hl
    rw [fallbackReturn_malformed _ _ _ _ _ hl]
  · intro d s hl
    rw [fallbackReturn_missing _ _ _ _ _ d s hl]
  · intro e'
    cases hl : lookup store (cache_type, cache_key) with
    | none => rw [fallbackReturn_none _ _ _ _ _ hl]; simp
    | some r =>
      cases r with
      | ok d ts s => rw [fallbackReturn_ok _ _ _ _ _ d ts s hl]; simp
      | malformedJson => rw [fallbackReturn_malformed _ _ _ _ _ hl]; simp
      | missingTimestamp d s =>
        rw [fallbackReturn_missing _ _ _ _ _ d s hl]; simp
      | badTimestamp d s =>
        exfalso
        unfold get_fresh at hmiss
        rw [hl] at hmiss
        exact absurd hmiss (by simp)
  · cases hl : lookup store (cache_type, cache_key) with
    | none => rw [fallbackReturn_none _ _ _ _ _ hl]
    | some r =>
      cases r with
      | ok d ts s => rw [fallbackReturn_ok _ _ _ _ _ d ts s hl]
      | malformedJson => rw [fallbackReturn_malformed _ _ _ _ _ hl]
      | missingTimestamp d s => rw [fallbackReturn_missing _ _ _ _ _ d s hl]
      | badTimestamp d s =>
        exfalso
        unfold get_fresh at hmiss
        rw [hl] at hmiss
        exact absurd hmiss (by simp)

/-- Witness for C2: a 2-hour-old entry with TTL 10 minutes; the adapter
times out on every attempt; the fetch returns the stale payload tagged
`is_fallback = true` with age "2h ago". -/
theorem C2_upstream_failure_witness :
    (fetch_with_cache cfg0
      [(("polygon", "NFLX"), RawRecord.ok (42 : Nat) (-7200) "api")] 0
      "polygon" "NFLX" httpxHTTPError (fun _ => .error .timeoutOrConnect)).1 =
      .ok (some ⟨42, some (format_age (0 - (-7200))), true⟩) :=
  (C2_upstream_failure cfg0
    [(("polygon", "NFLX"), RawRecord.ok (42 : Nat) (-7200) "api")] 0
    "polygon" "NFLX" httpxHTTPError (fun _ => .error .timeoutOrConnect)
    rfl (by rfl) (fun _ => ⟨.timeoutOrConnect, rfl⟩)).1 42 (-7200) "api" rfl

/-- Counterexample to C4 as stated: a record whose timestamp string is
malformed (present but unparseable) makes `get_fresh` raise `ValueError`
instead of returning absent. -/
theorem C4_cex :
    get_fresh cfg0
      [(("polygon", "NFLX"), RawRecord.badTimestamp (5 : Nat) "api")] 0
      "polygon" "NFLX" = .error .valueError := by rfl

/-- C4 (amended): `get_fresh` returns the entry only when its age is within
TTL and otherwise behaves as a miss; a missing file, malformed JSON, or a
record without a timestamp field is treated as a miss without raising; but a
record whose timestamp string is present and malformed raises `ValueError`
(`datetime.fromisoformat` is outside the caught exception classes). -/
theorem C4_get_fresh_behavior {α : Type} (cfg : Config) (store : Store α)
    (now : Time) (cache_type ticker : String) :
    (lookup store (cache_type, ticker) = none →
      get_fresh cfg store now cache_type ticker = .ok none) ∧
    (lookup store (cache_type, ticker) = some .malformedJson →
      get_fresh cfg store now cache_type ticker = .ok none) ∧
    (∀ d s, lookup store (cache_type, ticker) = some (.missingTimestamp d s) →
      get_fresh cfg store now cache_type ticker = .ok none) ∧
    (∀ d ts s, lookup store (cache_type, ticker) = some (.ok d ts s) →
      (now - ts ≤ cfg.CACHE_TTL_MINUTES * 60 →
        get_fresh cfg store now cache_type ticker = .ok (some ⟨d, ts, s⟩)) ∧
      (cfg.CACHE_TTL_MINUTES * 60 < now - ts →
        get_fresh cfg store now cache_type ticker = .ok none)) ∧
    (∀ d s, lookup store (cache_type, ticker) = some (.badTimestamp d s) →
      get_fresh cfg store now cache_type ticker = .error .valueError) := by
  refine ⟨?_, ?_, ?_, ?_, ?_⟩
  · intro h; unfold get_fresh; rw [h]
  · intro h; unfold get_fresh; rw [h]
  · intro d s h; unfold get_fresh; rw [h]
  · intro d ts s h
    constructor
    · intro hfresh; unfold get_fresh; rw [h]; simp [hfresh]
    · intro hstale; unfold get_fresh; rw [h]
      have hneg : ¬ now - ts ≤ cfg.CACHE_TTL_MINUTES * 60 := by
        intro hc; linarith
      simp [hneg]
  · intro d s h; unfold get_fresh; rw [h]

/-- Witness for C4 (amended): a fresh well-formed record is returned; a
record with no timestamp field is a silent miss. -/
theorem C4_get_fresh_behavior_witness :
    get_fresh cfg0 [(("polygon", "NFLX"), RawRecord.ok (5 : Nat) 0 "api")] 60
      "polygon" "NFLX" = .ok (some ⟨5, 0, "api"⟩) ∧
    get_fresh cfg0
      [(("news", "TSLA"), RawRecord.missingTimestamp (3 : Nat) "api")] 0
      "news" "TSLA" = .ok none :=
  ⟨((C4_get_fresh_behavior cfg0
      [(("polygon", "NFLX"), RawRecord.ok (5 : Nat) 0 "api")] 60 "polygon"
      "NFLX").2.2.2.1 5 0 "api" rfl).1 (by decide),
   (C4_get_fresh_behavior cfg0
      [(("news", "TSLA"), RawRecord.missingTimestamp (3 : Nat) "api")] 0
      "news" "TSLA").2.2.1 3 "api" rfl⟩

/-- After `set`, the key's file holds exactly the freshly written record
`{data, timestamp: now, source: "api"}`: the sweep never deletes it (its age
is 0 and `CACHE_MAX_AGE_HOURS ≥ 1`), and even an aborted sweep leaves it in
place. -/
theorem set_lookup_self {α : Type} (cfg : Config) (store : Store α)
    (now : Time) (cache_type ticker : String) (data : α) (hv : cfg.Valid) :
    lookup (set cfg store now cache_type ticker data).2 (cache_type, ticker) =
      some (.ok data now "api") := by
  have h1 : lookup (storeInsert store (cache_type, ticker) (.ok data now "api"))
      (cache_type, ticker) = some (.ok data now "api") :=
    lookup_storeInsert_self store (cache_type, ticker) (.ok data now "api")
  have hcut : ¬ now < now - cfg.CACHE_MAX_AGE_HOURS * 3600 := by
    have h2 := hv.2
    intro hlt
    linarith
  simp only [set]
  exact cleanupGo_lookup_ok (now - cfg.CACHE_MAX_AGE_HOURS * 3600) _
    (cache_type, ticker) data now "api" h1 hcut

/-- C7: `get_fresh` invoked immediately after `set(key, payload)` returns
the just-written payload; its persisted `source` tag is `"api"`, which is
the spec's `origin = "live"`. -/
theorem C7_set_then_get_fresh {α : Type} (cfg : Config) (store : Store α)
    (now : Time) (cache_type ticker : String) (data : α) (hv : cfg.Valid) :
    get_fresh cfg (set cfg store now cache_type ticker data).2 now
      cache_type ticker = .ok (some ⟨data, now, "api"⟩) ∧
    sourceOrigin "api" = .live := by
  constructor
  · have httl : now - now ≤ cfg.CACHE_TTL_MINUTES * 60 := by
      have h1 := hv.1
      linarith
    unfold get_fresh
    rw [set_lookup_self cfg store now cache_type ticker data hv]
    simp only [if_pos httl]
  · rfl

/-- Witness for C7: writing 42 to `("polygon", "NFLX")` into an empty cache
and reading it back fresh. -/
theorem C7_set_then_get_fresh_witness :
    get_fresh cfg0 (set cfg0 ([] : Store Nat) 0 "polygon" "NFLX" 42).2 0
      "polygon" "NFLX" = .ok (some ⟨42, 0, "api"⟩) ∧
    sourceOrigin "api" = .live :=
  C7_set_then_get_fresh cfg0 [] 0 "polygon" "NFLX" 42 ⟨by decide, by decide⟩

/-- Counterexample to C5 as stated: the cache holds a malformed-timestamp
file (swept first) and a ~55-hour-old entry (`MAX_AGE` is 24 hours). The
next `set` aborts the sweep with an uncaught `ValueError` — the
unparseable file is not deleted, one file's failure does abort the sweep of
the rest — and the over-age entry is still served by `get_stale`
afterwards. -/
theorem C5_cex :
    (set cfg0
      [(("a", "x"), RawRecord.badTimestamp (0 : Nat) "api"),
       (("b", "y"), RawRecord.ok (1 : Nat) (-200000) "api")] 0 "polygon"
      "NFLX" (5 : Nat)).1 = .error .valueError ∧
    get_stale (set cfg0
      [(("a", "x"), RawRecord.badTimestamp (0 : Nat) "api"),
       (("b", "y"), RawRecord.ok (1 : Nat) (-200000) "api")] 0 "polygon"
      "NFLX" (5 : Nat)).2 0 "b" "y" =
      .ok (some ⟨1, -200000, "fallback"⟩) ∧
    lookup (set cfg0
      [(("a", "x"), RawRecord.badTimestamp (0 : Nat) "api"),
       (("b", "y"), RawRecord.ok (1 : Nat) (-200000) "api")] 0 "polygon"
      "NFLX" (5 : Nat)).2 ("a", "x") =
      some (RawRecord.badTimestamp (0 : Nat) "api") :=
  ⟨by rfl, by rfl, by rfl⟩

/-- C5 (amended): provided no persisted record has a malformed timestamp
string (such a record makes the sweep raise `ValueError`, aborting it and
leaving that file and the rest untouched), the sweep triggered by `set`
completes, deletes every entry older than `MAX_AGE`, and deletes every
entry that fails JSON parsing or lacks a timestamp field; consequently an
entry older than `MAX_AGE` is absent (from `lookup`, hence from both
`get_fresh` and `get_stale`) after the next `set`. -/
theorem C5_sweep {α : Type} (cfg : Config) (store : Store α) (now : Time)
    (cache_type ticker : String) (data : α)
    (hnd : (store.map Prod.fst).Nodup)
    (hnb : ∀ p ∈ store, p.2.isBadTimestamp = false) :
    (set cfg store now cache_type ticker data).1 = .ok () ∧
    (∀ k', k' ≠ (cache_type, ticker) →
      (∀ d' ts' s', lookup store k' = some (.ok d' ts' s') →
        ts' < now - cfg.CACHE_MAX_AGE_HOURS * 3600 →
        lookup (set cfg store now cache_type ticker data).2 k' = none ∧
        get_fresh cfg (set cfg store now cache_type ticker data).2 now
          k'.1 k'.2 = .ok none ∧
        get_stale (set cfg store now cache_type ticker data).2 now
          k'.1 k'.2 = .ok none) ∧
      (lookup store k' = some .malformedJson →
        lookup (set cfg store now cache_type ticker data).2 k' = none) ∧
      (∀ d' s', lookup store k' = some (.missingTimestamp d' s') →
        lookup (set cfg store now cache_type ticker data).2 k' = none)) := by
  have hnb' : ∀ p ∈ storeInsert store (cache_type, ticker)
      (.ok data now "api"), p.2.isBadTimestamp = false := by
    intro p hp
    rcases mem_storeInsert store (cache_type, ticker) (.ok data now "api") p hp
      with h | h
    · exact hnb p h
    · rw [h]; rfl
  have hnd' := nodup_map_fst_storeInsert store (cache_type, ticker)
    (.ok data now "api") hnd
  have hclean := cleanupGo_no_bad (now - cfg.CACHE_MAX_AGE_HOURS * 3600)
    (storeInsert store (cache_type, ticker) (.ok data now "api")) hnb'
  have hres1 : (set cfg store now cache_type ticker data).1 = .ok () := by
    simp only [set, hclean]
  have hres2 : (set cfg store now cache_type ticker data).2 =
      (storeInsert store (cache_type, ticker) (.ok data now "api")).filter
        (fun p => keepsRec (now - cfg.CACHE_MAX_AGE_HOURS * 3600) p.2) := by
    simp only [set, hclean]
  refine ⟨hres1, ?_⟩
  intro k' hk'
  have hlk : lookup (storeInsert store (cache_type, ticker)
      (.ok data now "api")) k' = lookup store k' :=
    lookup_storeInsert_ne store (cache_type, ticker) k' (.ok data now "api") hk'
  refine ⟨?_, ?_, ?_⟩
  · intro d' ts' s' hl hold
    have hgone : lookup (set cfg store now cache_type ticker data).2 k' = none := by
      rw [hres2]
      exact lookup_filter_eq_none _ _ hnd' k' (.ok d' ts' s')
        (hlk.trans hl) (by simp [keepsRec, hold])
    refine ⟨hgone, ?_, ?_⟩
    · unfold get_fresh
      rw [hgone]
    · unfold get_stale
      rw [hgone]
  · intro hl
    rw [hres2]
    exact lookup_filter_eq_none _ _ hnd' k' .malformedJson (hlk.trans hl) rfl
  · intro d' s' hl
    rw [hres2]
    exact lookup_filter_eq_none _ _ hnd' k' (.missingTimestamp d' s')
      (hlk.trans hl) rfl

/-- Witness for C5 (amended): a ~55-hour-old entry for `("b", "y")` is gone
from `lookup` and `get_stale` after a `set` to a different key, and the
sweep completes. -/
theorem C5_sweep_witness :
    (set cfg0 [(("b", "y"), RawRecord.ok (1 : Nat) (-200000) "api")] 0
      "polygon" "NFLX" (5 : Nat)).1 = .ok () ∧
    lookup (set cfg0 [(("b", "y"), RawRecord.ok (1 : Nat) (-200000) "api")] 0
      "polygon" "NFLX" (5 : Nat)).2 ("b", "y") = none ∧
    get_stale (set cfg0 [(("b", "y"), RawRecord.ok (1 : Nat) (-200000) "api")]
      0 "polygon" "NFLX" (5 : Nat)).2 0 "b" "y" = .ok none := by
  have h := C5_sweep cfg0
    [(("b", "y"), RawRecord.ok (1 : Nat) (-200000) "api")] 0 "polygon" "NFLX"
    (5 : Nat) (by decide) (by decide)
  have h2 := (h.2 ("b", "y") (by decide)).1 1 (-200000) "api" rfl (by decide)
  exact ⟨h.1, h2.1, h2.2.2⟩

theorem fetch_with_cache_bg {α : Type} (cfg : Config) (store : Store α)
    (now : Time) (ct k : String) (retryOn : UpstreamError → Bool)
    (op : Nat → Except UpstreamError α) (hbg : cfg.BACKGROUND_REFRESH = true) :
    (fetch_with_cache cfg store now ct k retryOn op).2 = (store, 0) := by
  unfold fetch_with_cache
  split
  · rfl
  · split
    · rfl
    · rfl
  · split
    · split
      · rfl
      · split
        · rfl
        · rfl
      · rfl
    · rename_i h
      exact absurd hbg h

theorem get_insights_bg {α : Type} (cfg : Config) (store : Store α)
    (now : Time) (t : String) (force : Bool)
    (pOp nOp : Nat → Except UpstreamError α)
    (oOp : FetchOutcome α → FetchOutcome α → Nat → Except UpstreamError α)
    (hbg : cfg.BACKGROUND_REFRESH = true) :
    (get_insights cfg store now t force pOp nOp oOp).2 = (store, 0, false) := by
  have hgen : (insightsGenerate cfg store now t pOp nOp oOp).2 =
      (store, 0, false) := by
    unfold insightsGenerate
    split
    · rfl
    · rename_i h
      exact absurd hbg h
  unfold get_insights
  split
  · split
    · rfl
    · split
      · rfl
      · rfl
    · exact hgen
  · exact hgen

theorem ds_get_related_stocks_bg {α : Type} (cfg : Config) (store : Store α)
    (now : Time) (t : String)
    (relatedFetch : List String → Except UpstreamError (Option α) × Nat)
    (hbg : cfg.BACKGROUND_REFRESH = true) :
    (ds_get_related_stocks cfg store now t relatedFetch).2 = (store, 0) := by
  unfold ds_get_related_stocks
  split
  · dsimp only
    split
    · rfl
    · rfl
    · split
      · rfl
      · rfl
      · rfl
  · rename_i h
    exact absurd hbg h

theorem runRead_bg {α : Type} (cfg : Config) (ad : Adapters α) (now : Time)
    (hbg : cfg.BACKGROUND_REFRESH = true) (req : ReadReq) (store : Store α) :
    runRead cfg ad now req store = (store, 0) := by
  cases req with
  | stock t =>
    show ((get_stock_data cfg store now t (ad.polygonOp t)).2.1,
      (get_stock_data cfg store now t (ad.polygonOp t)).2.2) = (store, 0)
    rw [Prod.mk.eta]
    exact fetch_with_cache_bg cfg store now "polygon" t httpxHTTPError
      (ad.polygonOp t) hbg
  | news t =>
    show ((get_news cfg store now t (ad.newsOp t)).2.1,
      (get_news cfg store now t (ad.newsOp t)).2.2) = (store, 0)
    rw [Prod.mk.eta]
    exact fetch_with_cache_bg cfg store now "news" t httpxHTTPError
      (ad.newsOp t) hbg
  | insights t force =>
    show ((get_insights cfg store now t force (ad.polygonOp t) (ad.newsOp t)
        (ad.openaiOp t)).2.1,
      (get_insights cfg store now t force (ad.polygonOp t) (ad.newsOp t)
        (ad.openaiOp t)).2.2.1) = (store, 0)
    rw [get_insights_bg cfg store now t force (ad.polygonOp t) (ad.newsOp t)
      (ad.openaiOp t) hbg]
  | related t =>
    show ((ds_get_related_stocks cfg store now t ad.relatedFetch).2.1,
      (ds_get_related_stocks cfg store now t ad.relatedFetch).2.2) = (store, 0)
    rw [Prod.mk.eta]
    exact ds_get_related_stocks_bg cfg store now t ad.relatedFetch hbg

/-- C3: in background-refresh-only deployment mode, no sequence of
orchestrator read operations (stock data, news, insights — forced or not —
and related stocks) ever invokes a source adapter: the total adapter call
count over any sequence is 0, and the cache directory is left unchanged. -/
theorem C3_background_no_upstream {α : Type} (cfg : Config) (ad : Adapters α)
    (now : Time) (hbg : cfg.BACKGROUND_REFRESH = true) :
    ∀ (reqs : List ReadReq) (store : Store α),
      runReads cfg ad now reqs store = (store, 0) := by
  intro reqs
  induction reqs with
  | nil => intro store; rfl
  | cons req rest ih =>
    intro store
    show ((runReads cfg ad now rest (runRead cfg ad now req store).1).1,
      (runRead cfg ad now req store).2 +
        (runReads cfg ad now rest (runRead cfg ad now req store).1).2) =
      (store, 0)
    rw [runRead_bg cfg ad now hbg req store]
    rw [ih store]
    rfl

/-- Sample adapters whose calls are observable (used by the C3 witness). -/
def adSample : Adapters Nat :=
  ⟨fun _ _ => .ok 1, fun _ _ => .ok 2, fun _ _ _ _ => .ok 3,
   fun _ => (.ok (some 4), 1)⟩

/-- Witness for C3: a background-mode sequence touching all four read paths
(with a stale cache entry present) performs 0 adapter calls. -/
theorem C3_background_no_upstream_witness :
    runReads cfgBg adSample 0
      [.stock "NFLX", .news "NFLX", .insights "NFLX" true, .related "NFLX"]
      [(("polygon", "NFLX"), RawRecord.ok (7 : Nat) (-999999) "api")] =
      ([(("polygon", "NFLX"), RawRecord.ok (7 : Nat) (-999999) "api")], 0) :=
  C3_background_no_upstream cfgBg adSample 0 rfl _ _

theorem get_stale_ok_inv {α : Type} (store : Store α) (now : Time)
    (ct k : String) (c : CachedDict α)
    (h : get_stale store now ct k = .ok (some c)) :
    c.source = "fallback" ∧
    ∃ s, lookup store (ct, k) = some (.ok c.data c.timestamp s) := by
  unfold get_stale at h
  cases hl : lookup store (ct, k) with
  | none => rw [hl] at h; exact absurd h (by simp)
  | some r =>
    rw [hl] at h
    cases r with
    | malformedJson => exact absurd h (by simp)
    | missingTimestamp d s => exact absurd h (by simp)
    | badTimestamp d s => exact absurd h (by simp)
    | ok d ts s =>
      simp only [Except.ok.injEq, Option.some.injEq] at h
      subst h
      exact ⟨rfl, s, rfl⟩

theorem insightsGenerate_gen_imp_interactive {α : Type} (cfg : Config)
    (store : Store α) (now : Time) (t : String)
    (pOp nOp : Nat → Except UpstreamError α)
    (oOp : FetchOutcome α → FetchOutcome α → Nat → Except UpstreamError α)
    (h : (insightsGenerate cfg store now t pOp nOp oOp).2.2.2 = true) :
    cfg.BACKGROUND_REFRESH = false := by
  rcases hb : cfg.BACKGROUND_REFRESH with _ | _
  · rfl
  · unfold insightsGenerate at h
    simp [hb] at h

/-- Counterexample to C8 as stated: in interactive mode with
`force_refresh = False` and an empty insights cache, `get_insights`
regenerates anyway (it falls through to the generation path on a stale-cache
miss): the OpenAI generation runs and 3 adapter calls are made, without any
force signal. -/
theorem C8_cex :
    (get_insights cfg0 ([] : Store Nat) 0 "NFLX" false
      (fun _ => .ok 1) (fun _ => .ok 2) (fun _ _ _ => .ok 3)).2.2 =
      (3, true) ∧ (3 : Nat) ≠ 0 :=
  ⟨by rfl, by decide⟩

/-- C8 (amended): the AI-insight fetch uses the ageless stale read
(`get_stale`, no TTL check) as its cache check; in background-refresh-only
mode a force signal is downgraded to returning the cached insight if present
and absent otherwise (when the stale read finds nothing, the returned value
is absent, whatever the force flag), with no upstream call; and in
interactive mode it regenerates on an explicit force signal OR on a
stale-cache miss (not only on a force signal): whenever the generation path
runs, the mode is interactive and either the caller forced it or no cached
insight existed. -/
theorem C8_insights_policy {α : Type} (cfg : Config) (store : Store α)
    (now : Time) (t : String) (force : Bool)
    (pOp nOp : Nat → Except UpstreamError α)
    (oOp : FetchOutcome α → FetchOutcome α → Nat → Except UpstreamError α) :
    (cfg.BACKGROUND_REFRESH = true →
      (get_insights cfg store now t force pOp nOp oOp).2 = (store, 0, false)) ∧
    (cfg.BACKGROUND_REFRESH = true →
      get_stale store now "insights" t = .ok none →
      (get_insights cfg store now t force pOp nOp oOp).1 = .ok none) ∧
    ((get_insights cfg store now t force pOp nOp oOp).2.2.2 = true →
      cfg.BACKGROUND_REFRESH = false ∧
      (force = true ∨ get_stale store now "insights" t = .ok none)) ∧
    ((!force || cfg.BACKGROUND_REFRESH) = true →
      ∀ c, get_stale store now "insights" t = .ok (some c) →
        (get_insights cfg store now t force pOp nOp oOp).1 =
          .ok (some ⟨c.data, some (format_age (now - c.timestamp)), true⟩) ∧
        (get_insights cfg store now t force pOp nOp oOp).2 =
          (store, 0, false)) := by
  refine ⟨get_insights_bg cfg store now t force pOp nOp oOp, ?_, ?_, ?_⟩
  · intro hbg hstale
    have hc : (!force || cfg.BACKGROUND_REFRESH) = true := by simp [hbg]
    rw [get_insights, if_pos hc, hstale]
    unfold insightsGenerate
    rw [if_pos hbg]
  · intro h
    by_cases hc : (!force || cfg.BACKGROUND_REFRESH) = true
    · rw [get_insights, if_pos hc] at h
      cases hs : get_stale store now "insights" t with
      | error e => rw [hs] at h; exact absurd h (by simp)
      | ok o =>
        cases o with
        | some c =>
          rw [hs] at h
          cases ha : get_age store now "insights" t with
          | error e => rw [ha] at h; exact absurd h (by simp)
          | ok age => rw [ha] at h; exact absurd h (by simp)
        | none =>
          rw [hs] at h
          exact ⟨insightsGenerate_gen_imp_interactive cfg store now t pOp nOp
            oOp h, Or.inr rfl⟩
    · rw [get_insights, if_neg hc] at h
      have hforce : force = true := by
        rcases hf : force with _ | _
        · exact absurd (by simp [hf]) hc
        · rfl
      exact ⟨insightsGenerate_gen_imp_interactive cfg store now t pOp nOp
        oOp h, Or.inl hforce⟩
  · intro hc c hstale
    obtain ⟨hsrc, s, hl⟩ := get_stale_ok_inv store now "insights" t c hstale
    have ha : get_age store now "insights" t =
        .ok (some (format_age (now - c.timestamp))) := by
      unfold get_age
      rw [hl]
    rw [get_insights, if_pos hc, hstale, ha]
    exact ⟨rfl, rfl⟩

/-- Witness for C8 (amended): with no force signal and an insights entry
~11.5 days old, `get_insights` serves it from the ageless stale read (no TTL
check) with `is_cached = True` and performs no upstream call; and in
background-refresh-only mode a forced refresh on an empty cache returns
absent. -/
theorem C8_insights_policy_witness :
    (get_insights cfg0
      [(("insights", "NFLX"), RawRecord.ok (9 : Nat) (-999999) "api")] 0
      "NFLX" false (fun _ => .error .timeoutOrConnect)
      (fun _ => .error .timeoutOrConnect)
      (fun _ _ _ => .error .timeoutOrConnect)).1 =
      .ok (some ⟨9, some (format_age (0 - (-999999))), true⟩) ∧
    (get_insights cfg0
      [(("insights", "NFLX"), RawRecord.ok (9 : Nat) (-999999) "api")] 0
      "NFLX" false (fun _ => .error .timeoutOrConnect)
      (fun _ => .error .timeoutOrConnect)
      (fun _ _ _ => .error .timeoutOrConnect)).2 =
      ([(("insights", "NFLX"), RawRecord.ok (9 : Nat) (-999999) "api")],
        0, false) ∧
    (get_insights cfgBg ([] : Store Nat) 0 "NFLX" true
      (fun _ => .ok 1) (fun _ => .ok 2) (fun _ _ _ => .ok 3)).1 = .ok none :=
  ⟨((C8_insights_policy cfg0
      [(("insights", "NFLX"), RawRecord.ok (9 : Nat) (-999999) "api")] 0
      "NFLX" false (fun _ => .error .timeoutOrConnect)
      (fun _ => .error .timeoutOrConnect)
      (fun _ _ _ => .error .timeoutOrConnect)).2.2.2 rfl
      ⟨9, -999999, "fallback"⟩ (by rfl)).1,
   ((C8_insights_policy cfg0
      [(("insights", "NFLX"), RawRecord.ok (9 : Nat) (-999999) "api")] 0
      "NFLX" false (fun _ => .error .timeoutOrConnect)
      (fun _ => .error .timeoutOrConnect)
      (fun _ _ _ => .error .timeoutOrConnect)).2.2.2 rfl
      ⟨9, -999999, "fallback"⟩ (by rfl)).2,
   (C8_insights_policy cfgBg ([] : Store Nat) 0 "NFLX" true
      (fun _ => .ok 1) (fun _ => .ok 2) (fun _ _ _ => .ok 3)).2.1 rfl
      (by rfl)⟩

theorem fetch_ticker_fst (raw : String → Except UpstreamError (List ℚ))
    (t : String) : (fetch_ticker raw t).1 = t := by
  unfold fetch_ticker
  split
  · rfl
  · split
    · split
      · rfl
      · rfl
    · rfl

theorem related_keys (raw : String → Except UpstreamError (List ℚ)) :
    ∀ tickers : List String,
      (polygon_get_related_stocks raw tickers).map Prod.fst =
        tickers.filter (fun t => ((fetch_ticker raw t).2).isSome) := by
  intro tickers
  induction tickers with
  | nil => rfl
  | cons t ts ih =>
    unfold polygon_get_related_stocks at ih ⊢
    simp only [List.filterMap_map, Function.comp] at ih ⊢
    simp only [List.filterMap_cons, List.filter_cons]
    cases h : (fetch_ticker raw t).2 with
    | none => simp [h, ih]
    | some d => simp [h, ih, fetch_ticker_fst]

/-- C9: the fan-out over a set of related keys returns a mapping containing
exactly the keys whose individual fetch produced a payload (an exception or
insufficient data for one key yields `None` for that key only and does not
affect the others), with no duplicate keys, and whose size is the number of
keys that produced a payload. -/
theorem C9_fan_out (raw : String → Except UpstreamError (List ℚ))
    (tickers : List String) (hnd : tickers.Nodup) :
    (∀ k v, (k, v) ∈ polygon_get_related_stocks raw tickers ↔
      (k ∈ tickers ∧ (fetch_ticker raw k).2 = some v)) ∧
    ((polygon_get_related_stocks raw tickers).map Prod.fst).Nodup ∧
    (polygon_get_related_stocks raw tickers).length =
      (tickers.filter (fun t => ((fetch_ticker raw t).2).isSome)).length := by
  refine ⟨?_, ?_, ?_⟩
  · intro k v
    unfold polygon_get_related_stocks
    rw [List.mem_filterMap]
    constructor
    · rintro ⟨p, hp, hg⟩
      rw [List.mem_map] at hp
      obtain ⟨t, ht, rfl⟩ := hp
      rw [Option.map_eq_some'] at hg
      obtain ⟨d, hd, hpair⟩ := hg
      simp only [Prod.mk.injEq] at hpair
      obtain ⟨h1, h2⟩ := hpair
      rw [fetch_ticker_fst] at h1
      subst h1
      subst h2
      exact ⟨ht, hd⟩
    · rintro ⟨hk, hv⟩
      refine ⟨fetch_ticker raw k, List.mem_map.mpr ⟨k, hk, rfl⟩, ?_⟩
      simp [hv, fetch_ticker_fst]
  · rw [related_keys raw tickers]
    exact hnd.filter _
  · have h := congrArg List.length (related_keys raw tickers)
    rwa [List.length_map] at h

/-- The concrete 3-key scenario of the spec: key "B" always fails, "A" and
"C" succeed (used by the C9 witness). -/
def rawABC : String → Except UpstreamError (List ℚ) := fun t =>
  if t = "B" then .error .timeoutOrConnect
  else if t = "A" then .ok [10, 5] else .ok [8, 4]

/-- Witness for C9: with keys A, B, C where B's adapter always fails, the
result is a 2-entry mapping containing A and C. -/
theorem C9_fan_out_witness :
    ("A", (⟨10, 5, 100⟩ : RelatedEntry)) ∈
      polygon_get_related_stocks rawABC ["A", "B", "C"] ∧
    ("C", (⟨8, 4, 100⟩ : RelatedEntry)) ∈
      polygon_get_related_stocks rawABC ["A", "B", "C"] ∧
    (polygon_get_related_stocks rawABC ["A", "B", "C"]).length = 2 := by
  have h := C9_fan_out rawABC ["A", "B", "C"] (by decide)
  have hA : (fetch_ticker rawABC "A").2 = some (⟨10, 5, 100⟩ : RelatedEntry) := by
    have hr : rawABC "A" = .ok [10, 5] := by rfl
    unfold fetch_ticker
    rw [hr]
    dsimp only
    norm_num [RelatedEntry.mk.injEq]
  have hC : (fetch_ticker rawABC "C").2 = some (⟨8, 4, 100⟩ : RelatedEntry) := by
    have hr : rawABC "C" = .ok [8, 4] := by rfl
    unfold fetch_ticker
    rw [hr]
    dsimp only
    norm_num [RelatedEntry.mk.injEq]
  refine ⟨(h.1 "A" ⟨10, 5, 100⟩).mpr ⟨by decide, hA⟩,
    (h.1 "C" ⟨8, 4, 100⟩).mpr ⟨by decide, hC⟩, ?_⟩
  rw [h.2.2]
  decide

theorem applyOps_filter_writes {α : Type} (cfg : Config) (now : Time) :
    ∀ (ops : List (CacheOp α)) (store : Store α),
      applyOps cfg now ops store =
        applyOps cfg now (ops.filter CacheOp.isWrite) store := by
  intro ops
  induction ops with
  | nil => intro store; rfl
  | cons op rest ih =>
    intro store
    cases op with
    | opGetFresh ct t =>
      simpa [applyOps, applyOp, List.filter_cons, CacheOp.isWrite]
        using ih store
    | opGetStale ct t =>
      simpa [applyOps, applyOp, List.filter_cons, CacheOp.isWrite]
        using ih store
    | opGetAge ct t =>
      simpa [applyOps, applyOp, List.filter_cons, CacheOp.isWrite]
        using ih store
    | opSet ct t d =>
      simpa [applyOps, applyOp, List.filter_cons, CacheOp.isWrite]
        using ih ((set cfg store now ct t d).2)

/-- C10: the read operations `get_fresh`, `get_stale`, `get_age` leave the
persisted cache directory unchanged — dropping them from any operation
sequence does not change the final directory, and an all-reads sequence is
the identity; `get_stale`'s `"fallback"` tag exists only on the in-memory
copy it returns, while the persisted record keeps its stored `source`; in
particular after a `set` the persisted record keeps `source = "api"` even
though `get_stale` returns it tagged `"fallback"`. -/
theorem C10_reads_are_pure {α : Type} (cfg : Config) (now : Time)
    (store : Store α) (ops : List (CacheOp α)) (cache_type ticker : String)
    (data : α) :
    (applyOps cfg now ops store =
      applyOps cfg now (ops.filter CacheOp.isWrite) store) ∧
    ((∀ op ∈ ops, op.isWrite = false) → applyOps cfg now ops store = store) ∧
    (∀ c, get_stale store now cache_type ticker = .ok (some c) →
      c.source = "fallback" ∧
      ∃ s, lookup store (cache_type, ticker) =
        some (.ok c.data c.timestamp s)) ∧
    (cfg.Valid →
      get_stale (set cfg store now cache_type ticker data).2 now cache_type
        ticker = .ok (some ⟨data, now, "fallback"⟩) ∧
      lookup (set cfg store now cache_type ticker data).2
        (cache_type, ticker) = some (.ok data now "api")) := by
  refine ⟨applyOps_filter_writes cfg now ops store, ?_, ?_, ?_⟩
  · intro hall
    have hnil : ops.filter CacheOp.isWrite = [] := by
      rw [List.filter_eq_nil_iff]
      intro op hop
      simp [hall op hop]
    rw [applyOps_filter_writes cfg now ops store, hnil]
    rfl
  · intro c hc
    exact get_stale_ok_inv store now cache_type ticker c hc
  · intro hv
    have hl := set_lookup_self cfg store now cache_type ticker data hv
    constructor
    · unfold get_stale
      rw [hl]
    · exact hl

/-- Witness for C10: three reads leave the directory untouched; after a
`set`, `get_stale` returns the copy tagged `"fallback"` while the persisted
record still says `"api"`. -/
theorem C10_reads_are_pure_witness :
    applyOps cfg0 0
      [CacheOp.opGetFresh "a" "b", CacheOp.opGetStale "a" "b",
        CacheOp.opGetAge "a" "b"]
      [(("a", "b"), RawRecord.ok (1 : Nat) 0 "api")] =
      [(("a", "b"), RawRecord.ok (1 : Nat) 0 "api")] ∧
    get_stale (set cfg0 [(("a", "b"), RawRecord.ok (1 : Nat) 0 "api")] 0 "a"
      "b" (5 : Nat)).2 0 "a" "b" = .ok (some ⟨5, 0, "fallback"⟩) ∧
    lookup (set cfg0 [(("a", "b"), RawRecord.ok (1 : Nat) 0 "api")] 0 "a" "b"
      (5 : Nat)).2 ("a", "b") = some (RawRecord.ok 5 0 "api") := by
  have h := C10_reads_are_pure cfg0 0
    [(("a", "b"), RawRecord.ok (1 : Nat) 0 "api")]
    [CacheOp.opGetFresh "a" "b", CacheOp.opGetStale "a" "b",
      CacheOp.opGetAge "a" "b"] "a" "b" (5 : Nat)
  exact ⟨h.2.1 (by decide), (h.2.2.2 ⟨by decide, by decide⟩).1,
    (h.2.2.2 ⟨by decide, by decide⟩).2⟩

end FinDash
